import Mathlib

/-!
Verification development for the geodesic path-following and guidance
subsystem of the LocAR A-Frame navigation client.

JavaScript numbers are modeled as exact rationals (ℚ); timestamps
(`Date.now()` milliseconds) as integers (ℤ).  `Math.PI` is the IEEE-754
double actually used by the code, which is the exact rational
884279719003555 / 2^48.  The haversine distance (floating-point
trigonometry) is abstracted as a distance-function parameter wherever the
code merely compares its results; all surrounding control flow is embedded
verbatim from the source.
-/

namespace LocAR

/-- A WGS84 coordinate pair as used throughout the source
(`{latitude, longitude}` objects and `[longitude, latitude]` arrays). -/
@[ext]
structure GeoPoint where
  longitude : ℚ
  latitude : ℚ
deriving DecidableEq, Repr

/-- Embeds `ARPathNavigationArrow.closestPointOnSegment` (part_003 lines
170–191, identical to the projection core of `PathManager.distanceToSegment`,
pathManager.js lines 140–167): planar projection of `point` onto the segment
from `lineStart` to `lineEnd` with the parameter clamped to [0, 1];
a zero-length segment returns `lineStart`. -/
def closestPointOnSegment (point lineStart lineEnd : GeoPoint) : GeoPoint :=
  let dx := lineEnd.longitude - lineStart.longitude
  let dy := lineEnd.latitude - lineStart.latitude
  let length2 := dx * dx + dy * dy
  if length2 = 0 then
    { longitude := lineStart.longitude, latitude := lineStart.latitude }
  else
    let t := max 0 (min 1
      (((point.longitude - lineStart.longitude) * dx +
        (point.latitude - lineStart.latitude) * dy) / length2))
    { longitude := lineStart.longitude + t * dx
      latitude := lineStart.latitude + t * dy }

/-- Reference definition following the spec's words (§4.1
`projectPointOntoSegmentLocal`): `t = clamp(((p−s)·(e−s)) / |e−s|², 0, 1)`,
result `s + t·(e−s)`; degenerate case `s == e` returns `s`. -/
def projectPointOntoSegmentSpec (p s e : GeoPoint) : GeoPoint :=
  if s = e then s
  else
    let dx := e.longitude - s.longitude
    let dy := e.latitude - s.latitude
    let t := max 0 (min 1
      (((p.longitude - s.longitude) * dx + (p.latitude - s.latitude) * dy) /
        (dx * dx + dy * dy)))
    { longitude := s.longitude + t * dx, latitude := s.latitude + t * dy }

/-- The result record of `findClosestPointOnPath`
(`{...closestPoint, index, distance}`, part_003 line 160). -/
structure ClosestPointResult where
  point : GeoPoint
  index : ℕ
  distance : ℚ
deriving DecidableEq, Repr

/-- The segment loop of `findClosestPointOnPath` (part_003 lines 137–158):
walks the consecutive-vertex segments carrying the running strict minimum
(`distance < minDistance`, so the first-encountered minimum is kept).  The
`none` accumulator is the initial `minDistance = Infinity` state, which every
finite distance beats.  `d` abstracts `haversineDistance`. -/
def scanSegments (d : GeoPoint → GeoPoint → ℚ) (pos : GeoPoint) :
    List (GeoPoint × GeoPoint) → ℕ → Option ClosestPointResult →
    Option ClosestPointResult
  | [], _, acc => acc
  | se :: rest, i, acc =>
    let c := closestPointOnSegment pos se.1 se.2
    let dc := d pos c
    let acc2 : Option ClosestPointResult :=
      match acc with
      | none => some { point := c, index := i, distance := dc }
      | some b =>
        if dc < b.distance then some { point := c, index := i, distance := dc }
        else some b
    scanSegments d pos rest (i + 1) acc2

/-- Embeds `ARPathNavigationArrow.findClosestPointOnPath` (part_003 lines
132–161).  A missing/`null` position or path is `none`; the explicit guard
rejects an empty coordinate list; the loop over segments is `scanSegments`
starting from `minDistance = Infinity` (`none`), and a path with a single
coordinate yields `none` because the loop body never runs. -/
def findClosestPointOnPath (d : GeoPoint → GeoPoint → ℚ)
    (userPosition : Option GeoPoint) (path : Option (List GeoPoint)) :
    Option ClosestPointResult :=
  match userPosition, path with
  | some pos, some coords =>
    if coords = [] then none
    else scanSegments d pos (coords.zip coords.tail) 0 none
  | _, _ => none

/-- `this.hideDistance = 20` (part_003 line 39). -/
def hideDistance : ℚ := 20

/-- `const showThreshold = this.hideDistance + 5` (part_003 line 256). -/
def showThreshold : ℚ := hideDistance + 5

/-- The hysteresis core of `checkDistanceVisibility` (part_003 lines
253–268), run on a non-throttled distance re-check: when hidden, un-hide
only for `distance > showThreshold`; when visible, hide for
`distance < hideThreshold`. -/
def hysteresisStep (hidden : Bool) (distance : ℚ) : Bool :=
  if hidden then
    if showThreshold < distance then false else hidden
  else
    if distance < hideDistance then true else hidden

/-- Number of times `isHiddenByDistance` changes while running
`hysteresisStep` from state `hidden` over a sequence of distance samples. -/
def toggleCount (hidden : Bool) : List ℚ → ℕ
  | [] => 0
  | distance :: rest =>
    (if hysteresisStep hidden distance = hidden then 0 else 1) +
      toggleCount (hysteresisStep hidden distance) rest

/-- The IEEE-754 double `Math.PI`, exactly. -/
def mathPI : ℚ := 884279719003555 / 281474976710656

/-- JavaScript `Math.trunc`-style truncation toward zero on exact
rationals. -/
def ratTrunc (q : ℚ) : ℤ := if 0 ≤ q then ⌊q⌋ else ⌈q⌉

/-- The JavaScript `%` operator on numbers: remainder carrying the sign of
the dividend, `x − y·trunc(x/y)`. -/
def jsRem (x y : ℚ) : ℚ := x - y * (ratTrunc (x / y) : ℚ)

/-- Embeds the angle-normalization step
`relativeAngle = ((relativeAngle + Math.PI) % (2 * Math.PI)) - Math.PI`
(part_003 line 397, arNavigationArrow.js line 158). -/
def normalizeRelativeAngle (angle : ℚ) : ℚ :=
  jsRem (angle + mathPI) (2 * mathPI) - mathPI

/-- Throttle state of the arrow update (`this.lastUpdate`, `this.lastAngle`,
`arrowObject.rotation.y`; part_003 lines 31–32 initialize the first two to 0). -/
structure ArrowThrottleState where
  lastUpdate : ℤ
  lastAngle : ℚ
  rotationY : ℚ
deriving DecidableEq, Repr

/-- `this.updateThreshold = 50` ms (part_003 line 33). -/
def updateThreshold : ℤ := 50

/-- `this.angleThreshold = 2` degrees (part_003 line 34). -/
def angleThreshold : ℚ := 2

/-- Embeds the throttled tail of `ARPathNavigationArrow.update` (part_003
lines 356–405) and `ARNavigationArrow.update` (arNavigationArrow.js lines
125–166): return unchanged within `updateThreshold` ms of the last applied
update; otherwise apply the rotation and record angle and timestamp exactly
when the new angle differs from `lastAngle` by more than `angleThreshold`
degrees.  `relativeAngle` is the geometry pipeline's normalized output
(radians), abstracted as an input. -/
def updateStep (s : ArrowThrottleState) (now : ℤ) (relativeAngle : ℚ) :
    ArrowThrottleState :=
  if now - s.lastUpdate < updateThreshold then s
  else
    let relativeAngleDeg := relativeAngle * (180 / mathPI)
    if angleThreshold < |relativeAngleDeg - s.lastAngle| then
      { lastUpdate := now, lastAngle := relativeAngleDeg,
        rotationY := relativeAngle }
    else s

/-- The guidance/throttle fields of the marker arrow
(`ARNavigationArrow`). -/
structure ArrowGuidance where
  lastUpdate : ℤ
  lastAngle : ℚ
deriving DecidableEq, Repr

/-- The guidance/throttle/visibility fields of the path arrow
(`ARPathNavigationArrow`). -/
structure PathArrowGuidance where
  lastUpdate : ℤ
  lastAngle : ℚ
  lastDistanceCheck : ℤ
  isHiddenByDistance : Bool
deriving DecidableEq, Repr

/-- The module-level state of main.js touched by `setActive` and
`setActivePath`, together with the arrow instances' guidance state. -/
structure MainState where
  indexActive : ℤ
  markerImages : List String
  hasPathManager : Bool
  numPaths : ℕ
  activePathIndex : ℤ
  pathManagerActivePath : Option ℤ
  mapActivePath : ℤ
  arPathActiveFlags : List Bool
  arrow : ArrowGuidance
  pathArrow : PathArrowGuidance
deriving DecidableEq, Repr

/-- Embeds `setActive` (main.js lines 328–338): records the new active
marker index and recolors every marker image (red for the active index,
default otherwise).  This is the complete body of the function. -/
def setActive (i : ℤ) (s : MainState) : MainState :=
  { s with
    indexActive := i
    markerImages := s.markerImages.mapIdx (fun idx _ =>
      if (idx : ℤ) = i then "./images/map-marker-rot.png"
      else "./images/map-marker.png") }

/-- Embeds `setActivePath` (main.js lines 978–1007): an invalid index or a
missing path manager sets `activePathIndex = -1`; otherwise records the
index, forwards it to the path manager and the map view, and re-flags the
AR path objects.  The popup display is presentation-only and omitted. -/
def setActivePath (index : ℤ) (s : MainState) : MainState :=
  if ¬ s.hasPathManager ∨ index < 0 ∨ (s.numPaths : ℤ) ≤ index then
    { s with activePathIndex := -1 }
  else
    { s with
      activePathIndex := index
      pathManagerActivePath := some index
      mapActivePath := index
      arPathActiveFlags := s.arPathActiveFlags.mapIdx (fun i _ =>
        decide ((i : ℤ) = index)) }

/-- JavaScript `Math.round`: round half toward positive infinity,
`⌊x + 1/2⌋`. -/
def jsRound (x : ℚ) : ℤ := ⌊x + (1 : ℚ) / 2⌋

/-- Embeds the `distance` display mode of `updateDistance`
(distanceOverlay.js lines 41–49, part_005 lines 58–67): at or above 1000 m
show kilometers via `toFixed(1)` (round half up to one decimal digit) with
the `'.'` replaced by `','`, otherwise `Math.round`-ed whole meters. -/
def updateDistanceText (distance : ℚ) : String :=
  if 1000 ≤ distance then
    let km := distance / 1000
    let n := jsRound (10 * km)
    toString (n / 10) ++ "," ++ toString (n % 10) ++ " km"
  else
    toString (jsRound distance) ++ " m"

/-! ### Helper lemmas -/

theorem hysteresisStep_true_of_sample (d : ℚ) (h : d = 19 ∨ d = 21) :
    hysteresisStep true d = true := by
  rcases h with h | h <;> subst h <;>
    norm_num [hysteresisStep, showThreshold, hideDistance]

theorem toggleCount_true_eq_zero (l : List ℚ)
    (h : ∀ d ∈ l, d = 19 ∨ d = 21) : toggleCount true l = 0 := by
  induction l with
  | nil => rfl
  | cons d rest ih =>
    rw [toggleCount, hysteresisStep_true_of_sample d (h d (List.mem_cons_self d rest)),
      ih (fun x hx => h x (List.mem_cons_of_mem d hx))]
    simp

theorem toggleCount_false_le_one (l : List ℚ)
    (h : ∀ d ∈ l, d = 19 ∨ d = 21) : toggleCount false l ≤ 1 := by
  induction l with
  | nil => exact Nat.zero_le 1
  | cons d rest ih =>
    rcases h d (List.mem_cons_self d rest) with h19 | h21
    · subst h19
      have hstep : hysteresisStep false 19 = true := by
        norm_num [hysteresisStep, hideDistance]
      rw [toggleCount, hstep]
      rw [toggleCount_true_eq_zero rest (fun x hx => h x (List.mem_cons_of_mem _ hx))]
      simp
    · subst h21
      have hstep : hysteresisStep false 21 = false := by
        norm_num [hysteresisStep, hideDistance]
      rw [toggleCount, hstep]
      simpa using ih (fun x hx => h x (List.mem_cons_of_mem _ hx))

theorem scanSegments_some_spec (d : GeoPoint → GeoPoint → ℚ) (pos : GeoPoint) :
    ∀ (segs : List (GeoPoint × GeoPoint)) (i0 : ℕ) (b : ClosestPointResult),
    ∃ r, scanSegments d pos segs i0 (some b) = some r ∧
      (r = b ∨ ∃ (j : ℕ) (se : GeoPoint × GeoPoint), segs[j]? = some se ∧ r.index = i0 + j ∧
        r.point = closestPointOnSegment pos se.1 se.2 ∧
        r.distance = d pos r.point ∧ r.distance < b.distance ∧
        (∀ (k : ℕ) (sk : GeoPoint × GeoPoint), segs[k]? = some sk → k < j →
          r.distance < d pos (closestPointOnSegment pos sk.1 sk.2))) ∧
      r.distance ≤ b.distance ∧
      (∀ (k : ℕ) (sk : GeoPoint × GeoPoint), segs[k]? = some sk →
        r.distance ≤ d pos (closestPointOnSegment pos sk.1 sk.2)) := by
  intro segs
  induction segs with
  | nil =>
    intro i0 b
    refine ⟨b, rfl, Or.inl rfl, le_refl _, ?_⟩
    intro k sk hk
    simp at hk
  | cons se rest ih =>
    intro i0 b
    by_cases hlt : d pos (closestPointOnSegment pos se.1 se.2) < b.distance
    · obtain ⟨r, hscan, hdisj, hle, hall⟩ :=
        ih (i0 + 1) ⟨closestPointOnSegment pos se.1 se.2, i0,
          d pos (closestPointOnSegment pos se.1 se.2)⟩
      refine ⟨r, ?_, ?_, ?_, ?_⟩
      · rw [scanSegments, if_pos hlt]
        exact hscan
      · rcases hdisj with rfl | ⟨j, se2, hj, hidx, hpt, hdist, hltacc, hbefore⟩
        · right
          refine ⟨0, se, by simp, rfl, rfl, rfl, hlt, ?_⟩
          intro k sk hk hk0
          exact absurd hk0 (Nat.not_lt_zero k)
        · right
          refine ⟨j + 1, se2, by simpa using hj, by omega, hpt, hdist,
            lt_trans hltacc hlt, ?_⟩
          intro k sk hk hkj
          cases k with
          | zero =>
            have hse : se = sk := by simpa using hk
            subst hse
            exact hltacc
          | succ k =>
            exact hbefore k sk (by simpa using hk) (by omega)
      · exact le_trans hle (le_of_lt hlt)
      · intro k sk hk
        cases k with
        | zero =>
          have hse : se = sk := by simpa using hk
          subst hse
          exact hle
        | succ k =>
          exact hall k sk (by simpa using hk)
    · obtain ⟨r, hscan, hdisj, hle, hall⟩ := ih (i0 + 1) b
      have hbd : b.distance ≤ d pos (closestPointOnSegment pos se.1 se.2) :=
        not_lt.mp hlt
      refine ⟨r, ?_, ?_, hle, ?_⟩
      · rw [scanSegments, if_neg hlt]
        exact hscan
      · rcases hdisj with hrb | ⟨j, se2, hj, hidx, hpt, hdist, hltacc, hbefore⟩
        · exact Or.inl hrb
        · right
          refine ⟨j + 1, se2, by simpa using hj, by omega, hpt, hdist, hltacc, ?_⟩
          intro k sk hk hkj
          cases k with
          | zero =>
            have hse : se = sk := by simpa using hk
            subst hse
            exact lt_of_lt_of_le hltacc hbd
          | succ k =>
            exact hbefore k sk (by simpa using hk) (by omega)
      · intro k sk hk
        cases k with
        | zero =>
          have hse : se = sk := by simpa using hk
          subst hse
          exact le_trans hle hbd
        | succ k =>
          exact hall k sk (by simpa using hk)

theorem scanSegments_start_spec (d : GeoPoint → GeoPoint → ℚ) (pos : GeoPoint)
    (se0 : GeoPoint × GeoPoint) (rest : List (GeoPoint × GeoPoint)) :
    ∃ r, scanSegments d pos (se0 :: rest) 0 none = some r ∧
      (∃ (j : ℕ) (se : GeoPoint × GeoPoint), (se0 :: rest)[j]? = some se ∧ r.index = j ∧
        r.point = closestPointOnSegment pos se.1 se.2 ∧
        r.distance = d pos r.point ∧
        (∀ (k : ℕ) (sk : GeoPoint × GeoPoint), (se0 :: rest)[k]? = some sk → k < j →
          r.distance < d pos (closestPointOnSegment pos sk.1 sk.2))) ∧
      (∀ (k : ℕ) (sk : GeoPoint × GeoPoint), (se0 :: rest)[k]? = some sk →
        r.distance ≤ d pos (closestPointOnSegment pos sk.1 sk.2)) := by
  obtain ⟨r, hscan, hdisj, hle, hall⟩ :=
    scanSegments_some_spec d pos rest 1
      ⟨closestPointOnSegment pos se0.1 se0.2, 0,
        d pos (closestPointOnSegment pos se0.1 se0.2)⟩
  refine ⟨r, ?_, ?_, ?_⟩
  · rw [scanSegments]
    exact hscan
  · rcases hdisj with rfl | ⟨j, se2, hj, hidx, hpt, hdist, hltacc, hbefore⟩
    · refine ⟨0, se0, by simp, rfl, rfl, rfl, ?_⟩
      intro k sk hk hk0
      exact absurd hk0 (Nat.not_lt_zero k)
    · refine ⟨j + 1, se2, by simpa using hj, by omega, hpt, hdist, ?_⟩
      intro k sk hk hkj
      cases k with
      | zero =>
        have hse : se0 = sk := by simpa using hk
        subst hse
        exact hltacc
      | succ k =>
        exact hbefore k sk (by simpa using hk) (by omega)
  · intro k sk hk
    cases k with
    | zero =>
      have hse : se0 = sk := by simpa using hk
      subst hse
      exact hle
    | succ k =>
      exact hall k sk (by simpa using hk)

/-! ### Claim theorems -/

/-- C1 (counterexample): with the indicator initially visible
(`isHiddenByDistance = false`), the alternating distance sequence 19 m, 21 m
does NOT leave the state at its initial value: the first sample of 19 m is
below the hide threshold, so the state flips to hidden. -/
theorem hysteresis_altseq_toggles :
    List.foldl hysteresisStep false [19, 21] ≠ false := by
  norm_num [hysteresisStep, hideDistance, showThreshold]

/-- C1 (amended): the proximity-visibility state follows hysteresis with
asymmetric thresholds — when visible it hides exactly for distances below the
hide threshold (20 m), and when hidden it un-hides exactly for distances
above the show threshold (25 m).  Consequently, on every distance sequence
whose samples alternate between 19 m and 21 m the state never oscillates:
starting hidden it never changes at all, and from either initial state it
changes at most once (a visible indicator hides at the first 19 m sample and
then stays hidden). -/
theorem hysteresis_no_oscillation :
    (∀ d : ℚ, hysteresisStep false d = true ↔ d < hideDistance) ∧
    (∀ d : ℚ, hysteresisStep true d = false ↔ showThreshold < d) ∧
    (∀ l : List ℚ, (∀ d ∈ l, d = 19 ∨ d = 21) → toggleCount true l = 0) ∧
    (∀ (b : Bool) (l : List ℚ), (∀ d ∈ l, d = 19 ∨ d = 21) →
      toggleCount b l ≤ 1) := by
  refine ⟨?_, ?_, toggleCount_true_eq_zero, ?_⟩
  · intro d
    by_cases hd : d < hideDistance <;> simp [hysteresisStep, hd]
  · intro d
    by_cases hd : showThreshold < d <;> simp [hysteresisStep, hd]
  · intro b l hl
    cases b with
    | false => exact toggleCount_false_le_one l hl
    | true =>
      rw [toggleCount_true_eq_zero l hl]
      exact Nat.zero_le 1

/-- C1 (witness): the amended no-oscillation bound evaluated on the concrete
alternating sample sequence 19, 21, 19 from the visible initial state. -/
theorem hysteresis_no_oscillation_witness :
    (∀ d ∈ ([19, 21, 19] : List ℚ), d = 19 ∨ d = 21) ∧
    toggleCount false [19, 21, 19] ≤ 1 := by
  have hmem : ∀ d ∈ ([19, 21, 19] : List ℚ), d = 19 ∨ d = 21 := by
    intro d hd
    rcases List.mem_cons.1 hd with h | hd
    · exact Or.inl h
    rcases List.mem_cons.1 hd with h | hd
    · exact Or.inr h
    rcases List.mem_cons.1 hd with h | hd
    · exact Or.inl h
    · exact absurd hd (List.not_mem_nil d)
  exact ⟨hmem, hysteresis_no_oscillation.2.2.2 false [19, 21, 19] hmem⟩

/-- C3: the angle-normalization step does NOT return a value in (-π, π] for
every atan2 difference.  The input -3π/2 lies in (-2π, 2π) (so it arises as
a difference of two atan2 results), but the JavaScript `%` operator keeps
the dividend's sign, so `((x + π) % 2π) − π` returns -3π/2 unchanged — below
-π — contradicting the claimed guard for negative-modulo language
differences (and the code's own comment `normalisiert auf [-PI, PI]`). -/
theorem normalizeRelativeAngle_not_normalized :
    normalizeRelativeAngle (-(3 / 2) * mathPI) = -(3 / 2) * mathPI ∧
    -(2 * mathPI) < -(3 / 2) * mathPI ∧ -(3 / 2) * mathPI < 2 * mathPI ∧
    -(3 / 2) * mathPI < -mathPI ∧
    ¬ (-mathPI < normalizeRelativeAngle (-(3 / 2) * mathPI) ∧
       normalizeRelativeAngle (-(3 / 2) * mathPI) ≤ mathPI) := by
  have h : ratTrunc ((-(3 / 2) * mathPI + mathPI) / (2 * mathPI)) = 0 := by
    rw [ratTrunc]
    norm_num [mathPI]
  have heq : normalizeRelativeAngle (-(3 / 2) * mathPI) = -(3 / 2) * mathPI := by
    rw [normalizeRelativeAngle, jsRem, h]
    norm_num
  refine ⟨heq, by norm_num [mathPI], by norm_num [mathPI], by norm_num [mathPI], ?_⟩
  rw [heq]
  intro hcon
  have := hcon.1
  rw [show (-(3 / 2) * mathPI : ℚ) = -(3 * mathPI / 2) by ring] at this
  norm_num [mathPI] at this

/-- C4: switching the active navigation target does NOT reset the guidance
state.  `setActive` only records the new marker index and recolors the
marker images, and `setActivePath` only updates the path-selection
bookkeeping; neither writes `lastAngle`, `lastUpdate`,
`lastDistanceCheck` or `isHiddenByDistance`, so every throttling and
visibility decision of the previous target persists verbatim. -/
theorem setActive_preserves_guidance (i : ℤ) (s : MainState) :
    (setActive i s).arrow = s.arrow ∧
    (setActive i s).pathArrow = s.pathArrow ∧
    (setActivePath i s).arrow = s.arrow ∧
    (setActivePath i s).pathArrow = s.pathArrow := by
  refine ⟨rfl, rfl, ?_, ?_⟩ <;>
    · rw [setActivePath]
      split <;> rfl

/-- C6: the point-to-segment projection of the source equals the reference
definition `segStart + clamp(((p−s)·(e−s))/|e−s|², 0, 1)·(e−s)`, its result
always lies on the closed segment (it is `s + t·(e−s)` for some t ∈ [0, 1]),
and a zero-length segment (`segStart = segEnd`) returns `segStart`. -/
theorem closestPointOnSegment_correct (p s e : GeoPoint) :
    closestPointOnSegment p s e = projectPointOntoSegmentSpec p s e ∧
    (∃ t : ℚ, 0 ≤ t ∧ t ≤ 1 ∧
      closestPointOnSegment p s e =
        { longitude := s.longitude + t * (e.longitude - s.longitude)
          latitude := s.latitude + t * (e.latitude - s.latitude) }) ∧
    (s = e → closestPointOnSegment p s e = s) := by
  have hzero :
      ((e.longitude - s.longitude) * (e.longitude - s.longitude) +
        (e.latitude - s.latitude) * (e.latitude - s.latitude) = 0) ↔ s = e := by
    constructor
    · intro h0
      have hx : e.longitude - s.longitude = 0 := by
        nlinarith [mul_self_nonneg (e.longitude - s.longitude),
          mul_self_nonneg (e.latitude - s.latitude)]
      have hy : e.latitude - s.latitude = 0 := by
        nlinarith [mul_self_nonneg (e.longitude - s.longitude),
          mul_self_nonneg (e.latitude - s.latitude)]
      ext
      · linarith [sub_eq_zero.1 hx]
      · linarith [sub_eq_zero.1 hy]
    · intro hse
      subst hse
      ring
  refine ⟨?_, ?_, ?_⟩
  · rw [closestPointOnSegment, projectPointOntoSegmentSpec]
    split_ifs with h1 h2 h2
    · rfl
    · exact absurd (hzero.1 h1) h2
    · exact absurd (hzero.2 h2) h1
    · rfl
  · rw [closestPointOnSegment]
    split_ifs with h1
    · refine ⟨0, le_refl 0, zero_le_one, ?_⟩
      ext <;> simp
    · refine ⟨_, le_max_left 0 _, max_le zero_le_one (min_le_left 1 _), rfl⟩
  · intro hse
    subst hse
    rw [closestPointOnSegment]
    split_ifs with h1
    · rfl
    · exact absurd (by ring) h1

/-- C6 (witness): the degenerate zero-length segment case of the projection
theorem evaluated at a concrete point and segment. -/
theorem closestPointOnSegment_correct_witness :
    (⟨3, 4⟩ : GeoPoint) = ⟨3, 4⟩ ∧
    closestPointOnSegment ⟨0, 0⟩ ⟨3, 4⟩ ⟨3, 4⟩ = ⟨3, 4⟩ :=
  ⟨rfl, (closestPointOnSegment_correct ⟨0, 0⟩ ⟨3, 4⟩ ⟨3, 4⟩).2.2 rfl⟩

/-- C5: once a steering-angle update is applied at time `t0`, a second call
within `updateThreshold` (50 ms) of `t0` leaves the whole throttle state —
`lastAngle` and the applied rotation — unchanged, whatever angle it computes;
and a further call at `t2` with `t2 − t0 ≥ 50` whose angle differs from
`lastAngle` by more than `angleThreshold` (2°) updates `lastAngle` (and the
timestamp) to the new values. -/
theorem updateStep_time_throttle (s : ArrowThrottleState) (t0 t1 t2 : ℤ)
    (a0 a1 a2 : ℚ)
    (h0 : updateThreshold ≤ t0 - s.lastUpdate)
    (h1 : angleThreshold < |a0 * (180 / mathPI) - s.lastAngle|)
    (ht1 : t1 - t0 < updateThreshold)
    (ht2 : updateThreshold ≤ t2 - t0)
    (h2 : angleThreshold < |a2 * (180 / mathPI) - a0 * (180 / mathPI)|) :
    updateStep s t0 a0 =
      { lastUpdate := t0, lastAngle := a0 * (180 / mathPI), rotationY := a0 } ∧
    updateStep (updateStep s t0 a0) t1 a1 = updateStep s t0 a0 ∧
    (updateStep (updateStep s t0 a0) t2 a2).lastAngle = a2 * (180 / mathPI) ∧
    (updateStep (updateStep s t0 a0) t2 a2).lastUpdate = t2 := by
  have e1 : updateStep s t0 a0 =
      { lastUpdate := t0, lastAngle := a0 * (180 / mathPI), rotationY := a0 } := by
    rw [updateStep, if_neg (not_lt.mpr h0)]
    simp only []
    rw [if_pos h1]
  have e2 : updateStep (updateStep s t0 a0) t1 a1 = updateStep s t0 a0 := by
    rw [e1, updateStep]
    rw [if_pos (by simpa using ht1)]
  have e3 : updateStep (updateStep s t0 a0) t2 a2 =
      { lastUpdate := t2, lastAngle := a2 * (180 / mathPI), rotationY := a2 } := by
    rw [e1, updateStep, if_neg (by simpa using not_lt.mpr ht2)]
    simp only []
    rw [if_pos (by simpa using h2)]
  exact ⟨e1, e2, by rw [e3], by rw [e3]⟩

/-- C5 (witness): the throttle scenario evaluated concretely — an applied
update at t0 = 100 ms (angle 90°), a large-change call at t1 = 120 ms that is
ignored, and a call at t2 = 160 ms with angle 0° that is applied. -/
theorem updateStep_time_throttle_witness :
    updateStep { lastUpdate := 0, lastAngle := 0, rotationY := 0 } 100 (mathPI / 2) =
      { lastUpdate := 100, lastAngle := mathPI / 2 * (180 / mathPI),
        rotationY := mathPI / 2 } ∧
    updateStep
      (updateStep { lastUpdate := 0, lastAngle := 0, rotationY := 0 } 100 (mathPI / 2))
      120 (-(mathPI / 2)) =
      updateStep { lastUpdate := 0, lastAngle := 0, rotationY := 0 } 100 (mathPI / 2) ∧
    (updateStep
      (updateStep { lastUpdate := 0, lastAngle := 0, rotationY := 0 } 100 (mathPI / 2))
      160 0).lastAngle = 0 * (180 / mathPI) ∧
    (updateStep
      (updateStep { lastUpdate := 0, lastAngle := 0, rotationY := 0 } 100 (mathPI / 2))
      160 0).lastUpdate = 160 :=
  updateStep_time_throttle { lastUpdate := 0, lastAngle := 0, rotationY := 0 }
    100 120 160 (mathPI / 2) (-(mathPI / 2)) 0
    (by norm_num [updateThreshold])
    (by norm_num [angleThreshold, mathPI])
    (by norm_num [updateThreshold])
    (by norm_num [updateThreshold])
    (by norm_num [angleThreshold, mathPI])

/-- C9: distance formatting.  At the concrete boundaries, 999 m renders as
"999 m" (not km), 1000 m as "1,0 km" and 1500 m as "1,5 km" (the code uses
the localized comma separator); in general every non-negative distance below
1000 renders as `Math.round`-ed whole meters with unit "m", and every
distance of at least 1000 renders in kilometers with exactly one decimal
digit and unit "km". -/
theorem updateDistance_format :
    updateDistanceText 999 = "999 m" ∧
    updateDistanceText 1000 = "1,0 km" ∧
    updateDistanceText 1500 = "1,5 km" ∧
    (∀ d : ℚ, 0 ≤ d → d < 1000 →
      updateDistanceText d = toString (jsRound d) ++ " m") ∧
    (∀ d : ℚ, 1000 ≤ d → ∃ k r : ℤ, 0 ≤ r ∧ r < 10 ∧
      10 * k + r = jsRound (10 * (d / 1000)) ∧
      updateDistanceText d = toString k ++ "," ++ toString r ++ " km") := by
  refine ⟨?_, ?_, ?_, ?_, ?_⟩
  · norm_num [updateDistanceText, jsRound]
    rfl
  · norm_num [updateDistanceText, jsRound]
    rfl
  · norm_num [updateDistanceText, jsRound]
    rfl
  · intro d _ hlt
    rw [updateDistanceText, if_neg (not_le.mpr hlt)]
  · intro d hge
    rw [updateDistanceText, if_pos hge]
    exact ⟨jsRound (10 * (d / 1000)) / 10, jsRound (10 * (d / 1000)) % 10,
      Int.emod_nonneg _ (by norm_num), Int.emod_lt_of_pos _ (by norm_num),
      Int.ediv_add_emod _ 10, rfl⟩

/-- C9 (witness): the sub-kilometer branch of the formatting theorem
evaluated at the concrete distance 500 m. -/
theorem updateDistance_format_witness :
    (0 : ℚ) ≤ 500 ∧ (500 : ℚ) < 1000 ∧
    updateDistanceText 500 = toString (jsRound 500) ++ " m" :=
  ⟨by norm_num, by norm_num,
    updateDistance_format.2.2.2.1 500 (by norm_num) (by norm_num)⟩

/-- C10: in every call of the arrow update step the throttle fields change
together or not at all — the state is either returned exactly as it was, or
`lastUpdate`, `lastAngle` and the applied rotation are all rewritten to the
new values in one step; moreover a call whose computed angle differs from
`lastAngle` by no more than `angleThreshold` (2°) returns the state
unchanged, so a rejected sub-threshold update does not advance the
time-throttle window. -/
theorem updateStep_fields_atomic (s : ArrowThrottleState) (now : ℤ) (a : ℚ) :
    (updateStep s now a = s ∨
      updateStep s now a =
        { lastUpdate := now, lastAngle := a * (180 / mathPI), rotationY := a }) ∧
    (|a * (180 / mathPI) - s.lastAngle| ≤ angleThreshold →
      updateStep s now a = s) := by
  constructor
  · rw [updateStep]
    simp only []
    split_ifs with hthrottle hangle
    · exact Or.inl rfl
    · exact Or.inr rfl
    · exact Or.inl rfl
  · intro hsmall
    rw [updateStep]
    simp only []
    split_ifs with hthrottle hangle
    · rfl
    · exact absurd hangle (not_lt.mpr hsmall)
    · rfl

/-- C10 (witness): a sub-threshold call evaluated concretely — computed
angle 5° against `lastAngle = 5` leaves the full state (including
`lastUpdate`) untouched even though the time window is open. -/
theorem updateStep_fields_atomic_witness :
    |mathPI / 36 * (180 / mathPI) - (5 : ℚ)| ≤ angleThreshold ∧
    updateStep { lastUpdate := 0, lastAngle := 5, rotationY := 0 } 100
      (mathPI / 36) = { lastUpdate := 0, lastAngle := 5, rotationY := 0 } :=
  ⟨by norm_num [angleThreshold, mathPI],
    (updateStep_fields_atomic { lastUpdate := 0, lastAngle := 5, rotationY := 0 }
      100 (mathPI / 36)).2 (by norm_num [angleThreshold, mathPI])⟩

/-- C2: for every position and every path with at least 2 coordinates, the
closest-point resolver returns a result whose point is the projection onto
the segment at its index, whose recorded distance is the distance from the
position to that projected point, which is the global minimum of that
distance over all segments of the path — and every strictly earlier segment
has strictly larger distance, so on exact ties the lowest segment index is
returned (the code's strict `<` comparison keeps the first-encountered
minimum).  The distance function `d` abstracts the code's
`haversineDistance`, so the statement holds for it in particular. -/
theorem findClosestPointOnPath_argmin (d : GeoPoint → GeoPoint → ℚ)
    (pos : GeoPoint) (coords : List GeoPoint) (h2 : 2 ≤ coords.length) :
    ∃ r, findClosestPointOnPath d (some pos) (some coords) = some r ∧
      (∃ se : GeoPoint × GeoPoint,
        (coords.zip coords.tail)[r.index]? = some se ∧
        r.point = closestPointOnSegment pos se.1 se.2 ∧
        r.distance = d pos r.point) ∧
      (∀ (k : ℕ) (sk : GeoPoint × GeoPoint),
        (coords.zip coords.tail)[k]? = some sk →
        r.distance ≤ d pos (closestPointOnSegment pos sk.1 sk.2)) ∧
      (∀ (k : ℕ) (sk : GeoPoint × GeoPoint),
        (coords.zip coords.tail)[k]? = some sk → k < r.index →
        r.distance < d pos (closestPointOnSegment pos sk.1 sk.2)) := by
  match coords with
  | [] => simp at h2
  | [c] => simp at h2
  | c0 :: c1 :: rest =>
    obtain ⟨r, hscan, ⟨j, se, hj, hidx, hpt, hdist, hbefore⟩, hall⟩ :=
      scanSegments_start_spec d pos (c0, c1) ((c1 :: rest).zip rest)
    have hzip : (c0 :: c1 :: rest).zip (c0 :: c1 :: rest).tail =
        (c0, c1) :: (c1 :: rest).zip rest := rfl
    refine ⟨r, ?_, ⟨se, ?_, hpt, hdist⟩, ?_, ?_⟩
    · simp only [findClosestPointOnPath]
      rw [if_neg (by simp)]
      exact hscan
    · rw [hzip, hidx]
      exact hj
    · intro k sk hk
      rw [hzip] at hk
      exact hall k sk hk
    · intro k sk hk hkr
      rw [hzip] at hk
      exact hbefore k sk hk (hidx ▸ hkr)

/-- C2 (witness): the argmin characterization evaluated at a concrete
two-segment path with the constant-zero distance function. -/
theorem findClosestPointOnPath_argmin_witness :
    2 ≤ ([⟨0, 0⟩, ⟨10, 0⟩, ⟨10, 10⟩] : List GeoPoint).length ∧
    (∃ r, findClosestPointOnPath (fun _ _ => 0) (some ⟨5, 1⟩)
        (some [⟨0, 0⟩, ⟨10, 0⟩, ⟨10, 10⟩]) = some r ∧
      (∃ se : GeoPoint × GeoPoint,
        (([⟨0, 0⟩, ⟨10, 0⟩, ⟨10, 10⟩] : List GeoPoint).zip
          ([⟨0, 0⟩, ⟨10, 0⟩, ⟨10, 10⟩] : List GeoPoint).tail)[r.index]? = some se ∧
        r.point = closestPointOnSegment ⟨5, 1⟩ se.1 se.2 ∧
        r.distance = (fun _ _ => (0 : ℚ)) (⟨5, 1⟩ : GeoPoint) r.point) ∧
      (∀ (k : ℕ) (sk : GeoPoint × GeoPoint),
        (([⟨0, 0⟩, ⟨10, 0⟩, ⟨10, 10⟩] : List GeoPoint).zip
          ([⟨0, 0⟩, ⟨10, 0⟩, ⟨10, 10⟩] : List GeoPoint).tail)[k]? = some sk →
        r.distance ≤ (fun _ _ => (0 : ℚ)) (⟨5, 1⟩ : GeoPoint)
          (closestPointOnSegment ⟨5, 1⟩ sk.1 sk.2)) ∧
      (∀ (k : ℕ) (sk : GeoPoint × GeoPoint),
        (([⟨0, 0⟩, ⟨10, 0⟩, ⟨10, 10⟩] : List GeoPoint).zip
          ([⟨0, 0⟩, ⟨10, 0⟩, ⟨10, 10⟩] : List GeoPoint).tail)[k]? = some sk →
        k < r.index →
        r.distance < (fun _ _ => (0 : ℚ)) (⟨5, 1⟩ : GeoPoint)
          (closestPointOnSegment ⟨5, 1⟩ sk.1 sk.2))) :=
  ⟨by simp,
    findClosestPointOnPath_argmin (fun _ _ => 0) ⟨5, 1⟩
      [⟨0, 0⟩, ⟨10, 0⟩, ⟨10, 10⟩] (by simp)⟩

/-- C7: the closest-point resolver returns `null` whenever the position or
the path is missing, and whenever the path has fewer than 2 coordinates —
including the single-coordinate path, which slips past the explicit
empty-list guard but yields `null` because the segment loop never runs. -/
theorem findClosestPointOnPath_invalid (d : GeoPoint → GeoPoint → ℚ) :
    (∀ path : Option (List GeoPoint), findClosestPointOnPath d none path = none) ∧
    (∀ pos : Option GeoPoint, findClosestPointOnPath d pos none = none) ∧
    (∀ (pos : GeoPoint) (coords : List GeoPoint), coords.length < 2 →
      findClosestPointOnPath d (some pos) (some coords) = none) := by
  refine ⟨fun path => rfl, fun pos => by cases pos <;> rfl, ?_⟩
  intro pos coords hlen
  match coords with
  | [] => rfl
  | [c] => rfl
  | c0 :: c1 :: rest =>
    simp at hlen
    omega

/-- C7 (witness): the resolver evaluated on the concrete single-coordinate
path, which returns `none`. -/
theorem findClosestPointOnPath_invalid_witness :
    ([⟨7, 8⟩] : List GeoPoint).length < 2 ∧
    findClosestPointOnPath (fun _ _ => 0) (some ⟨0, 0⟩)
      (some [⟨7, 8⟩]) = none :=
  ⟨by simp, (findClosestPointOnPath_invalid (fun _ _ => 0)).2.2 ⟨0, 0⟩
    [⟨7, 8⟩] (by simp)⟩

/-- C8: whenever the closest-point resolver returns a non-null result, the
queried path has at least 2 coordinates and the result's segment index is a
valid segment index of that path: `index < coordinates.length − 1`. -/
theorem findClosestPointOnPath_index_valid (d : GeoPoint → GeoPoint → ℚ)
    (posOpt : Option GeoPoint) (pathOpt : Option (List GeoPoint))
    (r : ClosestPointResult)
    (h : findClosestPointOnPath d posOpt pathOpt = some r) :
    ∃ coords : List GeoPoint, pathOpt = some coords ∧ 2 ≤ coords.length ∧
      r.index < coords.length - 1 := by
  match posOpt, pathOpt with
  | none, p => exact absurd h (by simp [findClosestPointOnPath])
  | some pos, none => exact absurd h (by simp [findClosestPointOnPath])
  | some pos, some coords =>
    match coords with
    | [] => exact absurd h (by simp [findClosestPointOnPath])
    | [c] => exact absurd h (by simp [findClosestPointOnPath, scanSegments])
    | c0 :: c1 :: rest =>
      obtain ⟨r2, hscan, ⟨j, se, hj, hidx, _, _, _⟩, _⟩ :=
        scanSegments_start_spec d pos (c0, c1) ((c1 :: rest).zip rest)
      have hfind : findClosestPointOnPath d (some pos)
          (some (c0 :: c1 :: rest)) = some r2 := by
        simp only [findClosestPointOnPath]
        rw [if_neg (by simp)]
        exact hscan
      rw [hfind] at h
      have hr : r2 = r := Option.some.inj h
      subst hr
      have hjlen : j < ((c0, c1) :: (c1 :: rest).zip rest).length :=
        (List.getElem?_eq_some.1 hj).1
      have hzlen : ((c1 :: rest).zip rest).length = rest.length := by
        rw [List.length_zip, List.length_cons]
        exact min_eq_right (Nat.le_succ rest.length)
      refine ⟨c0 :: c1 :: rest, rfl, by simp, ?_⟩
      rw [hidx]
      simp only [List.length_cons, hzlen] at hjlen ⊢
      omega

/-- C8 (witness): the index-validity theorem applied to the resolver's
concrete output on a two-coordinate path. -/
theorem findClosestPointOnPath_index_valid_witness :
    findClosestPointOnPath (fun _ _ => 0) (some ⟨0, 0⟩)
      (some [⟨0, 0⟩, ⟨1, 0⟩]) = some ⟨⟨0, 0⟩, 0, 0⟩ ∧
    (∃ coords : List GeoPoint,
      (some [⟨0, 0⟩, ⟨1, 0⟩] : Option (List GeoPoint)) = some coords ∧
      2 ≤ coords.length ∧
      (⟨⟨0, 0⟩, 0, 0⟩ : ClosestPointResult).index < coords.length - 1) := by
  have heval : findClosestPointOnPath (fun _ _ => 0) (some ⟨0, 0⟩)
      (some [⟨0, 0⟩, ⟨1, 0⟩]) = some ⟨⟨0, 0⟩, 0, 0⟩ := by
    simp [findClosestPointOnPath, scanSegments, closestPointOnSegment]
  exact ⟨heval,
    findClosestPointOnPath_index_valid (fun _ _ => 0) (some ⟨0, 0⟩)
      (some [⟨0, 0⟩, ⟨1, 0⟩]) ⟨⟨0, 0⟩, 0, 0⟩ heval⟩

end LocAR
